import Mathlib

/-!
Shallow embedding of the lodestar beacon-state-transition epoch-processing
code (packages/beacon-state-transition/src/allForks): the epoch summary scan
in util/epochProcess.ts (beforeProcessEpoch, processEffectiveBalanceUpdates),
epoch/processSlashings.ts and epoch/processRegistryUpdates.ts, together with
the constants and small helpers those functions use.

Machine integers (TypeScript number / bigint Gwei amounts, epochs, indices)
are modelled as Nat; the source never relies on wrap-around in these
functions, and bigint subtraction that could go negative only feeds a `<`
comparison against a non-negative quantity, which agrees with truncated Nat
subtraction (noted at the definitions concerned).
-/

set_option autoImplicit false

/-! ### Consensus constants

The constants live in the packages/params workspace package, which is not in
the source tree. Modelled from the spec: mainnet consensus-constant values
("All others are consensus constants", spec section 6). -/

/-- Modelled from the spec: EFFECTIVE_BALANCE_INCREMENT, 1 ETH in Gwei. -/
def EFFECTIVE_BALANCE_INCREMENT : Nat := 1000000000

/-- Modelled from the spec: MAX_EFFECTIVE_BALANCE, 32 ETH in Gwei. -/
def MAX_EFFECTIVE_BALANCE : Nat := 32000000000

/-- Modelled from the spec: HYSTERESIS_QUOTIENT. -/
def HYSTERESIS_QUOTIENT : Nat := 4

/-- Modelled from the spec: HYSTERESIS_DOWNWARD_MULTIPLIER. -/
def HYSTERESIS_DOWNWARD_MULTIPLIER : Nat := 1

/-- Modelled from the spec: HYSTERESIS_UPWARD_MULTIPLIER. -/
def HYSTERESIS_UPWARD_MULTIPLIER : Nat := 5

/-- Modelled from the spec: EPOCHS_PER_SLASHINGS_VECTOR. -/
def EPOCHS_PER_SLASHINGS_VECTOR : Nat := 8192

/-- Modelled from the spec: FAR_FUTURE_EPOCH, the uint64 sentinel 2^64 - 1. -/
def FAR_FUTURE_EPOCH : Nat := 18446744073709551615

/-- Modelled from the spec: MAX_SEED_LOOKAHEAD. -/
def MAX_SEED_LOOKAHEAD : Nat := 4

/-- Modelled from the spec: the phase 0 proportional slashing multiplier,
which the spec's slashing example fixes at 3. -/
def PROPORTIONAL_SLASHING_MULTIPLIER : Nat := 3

/-- Modelled from the spec: the Altair proportional slashing multiplier
("multiplier differs phase 0 vs Altair"). -/
def PROPORTIONAL_SLASHING_MULTIPLIER_ALTAIR : Nat := 2

/-! ### Validator record

phase0.Validator as read by the modelled functions. The pubkey and
withdrawal-credentials fields are never read by the epoch-processing code
modelled here and are omitted. -/

structure Validator where
  effectiveBalance : Nat
  slashed : Bool
  activationEligibilityEpoch : Nat
  activationEpoch : Nat
  exitEpoch : Nat
  withdrawableEpoch : Nat
deriving DecidableEq

/-- Modelled from the spec: is_active_validator — active at `epoch` iff
activation_epoch <= epoch < exit_epoch (the util helper imported by
epochProcess.ts is not in the source tree). -/
def isActiveValidator (v : Validator) (epoch : Nat) : Bool :=
  decide (v.activationEpoch ≤ epoch) && decide (epoch < v.exitEpoch)

/-! ### Attester status flags

Modelled from the spec: the bitflag set of section 3 ("Attester Status").
The numeric bit assignments follow the attesterStatus util module, which is
not in the source tree; the claims only rely on the bits being distinct. -/

def FLAG_PREV_SOURCE_ATTESTER : Nat := 1
def FLAG_PREV_TARGET_ATTESTER : Nat := 2
def FLAG_PREV_HEAD_ATTESTER : Nat := 4
def FLAG_CURR_SOURCE_ATTESTER : Nat := 8
def FLAG_CURR_TARGET_ATTESTER : Nat := 16
def FLAG_CURR_HEAD_ATTESTER : Nat := 32
def FLAG_UNSLASHED : Nat := 64
def FLAG_ELIGIBLE_ATTESTER : Nat := 128

/-- hasMarkers(flags, markers): (flags & markers) == markers. -/
def hasMarkers (flags markers : Nat) : Bool :=
  flags &&& markers == markers

/-! ### Epoch summary scan (beforeProcessEpoch, epochProcess.ts lines 179-267)

The loop body at index i touches only validator i and pushes i to each index
list at most once, so the scan decomposes exactly into one pass per output:
`scanIndices p k vs` collects the indices (numbered from k) whose validator
satisfies p, in loop order. -/

/-- Flags assigned to one validator by the scan (epochProcess.ts lines
183-195): UNSLASHED in the else-branch of `if (validator.slashed)`, and
ELIGIBLE_ATTESTER for previous-epoch-active or recently slashed validators.
The participation-attribution phase ORs further bits in afterwards. -/
def scanStatusFlags (prevEpoch : Nat) (v : Validator) : Nat :=
  (if v.slashed then 0 else FLAG_UNSLASHED) |||
  (if isActiveValidator v prevEpoch || (v.slashed && decide (prevEpoch + 1 < v.withdrawableEpoch))
   then FLAG_ELIGIBLE_ATTESTER else 0)

/-- The indicesToSlash condition (epochProcess.ts lines 185-188):
slashed validators whose withdrawableEpoch equals
currentEpoch + EPOCHS_PER_SLASHINGS_VECTOR / 2. -/
def slashScanCond (currentEpoch : Nat) (v : Validator) : Bool :=
  v.slashed && decide (currentEpoch + EPOCHS_PER_SLASHINGS_VECTOR / 2 = v.withdrawableEpoch)

/-- The registry buckets of the scan's if/else-if ladder. -/
inductive RegistryBucket where
  | activationQueue
  | activation
  | eject
deriving DecidableEq

/-- The if/else-if ladder of epochProcess.ts lines 211-248, deciding which
registry bucket (if any) index i is pushed to. The third branch reuses
`active = isActiveValidator(validator, currentEpoch)` computed at line 197. -/
def registryBucket (ejectionBalance currentEpoch : Nat) (v : Validator) : Option RegistryBucket :=
  if v.activationEligibilityEpoch = FAR_FUTURE_EPOCH ∧ v.effectiveBalance = MAX_EFFECTIVE_BALANCE then
    some RegistryBucket.activationQueue
  else if v.activationEpoch = FAR_FUTURE_EPOCH ∧ v.activationEligibilityEpoch ≤ currentEpoch then
    some RegistryBucket.activation
  else if isActiveValidator v currentEpoch = true ∧ v.exitEpoch = FAR_FUTURE_EPOCH ∧
      v.effectiveBalance ≤ ejectionBalance then
    some RegistryBucket.eject
  else
    none

/-- Collect the indices (numbered from k) whose validator satisfies p, in
scan order: the list-model of `if (p) list.push(i)` inside the loop. -/
def scanIndices (p : Validator → Bool) : Nat → List Validator → List Nat
  | _, [] => []
  | k, v :: rest =>
    if p v then k :: scanIndices p (k + 1) rest else scanIndices p (k + 1) rest

/-- Sum of effective balances of validators active at currentEpoch
(epochProcess.ts lines 197-201). -/
def sumActiveStake (currentEpoch : Nat) : List Validator → Nat
  | [] => 0
  | v :: rest =>
    (if isActiveValidator v currentEpoch then v.effectiveBalance else 0) +
      sumActiveStake currentEpoch rest

/-- The floor applied to stake totals (epochProcess.ts lines 256-258 and
334-338): raise to EFFECTIVE_BALANCE_INCREMENT when below it. -/
def flooredAtIncrement (x : Nat) : Nat :=
  if x < EFFECTIVE_BALANCE_INCREMENT then EFFECTIVE_BALANCE_INCREMENT else x

/-- The comparator of epochProcess.ts line 266: ascending
(activationEligibilityEpoch, index). -/
def activationOrderLe (vals : Nat → Validator) (a b : Nat) : Bool :=
  decide ((vals a).activationEligibilityEpoch < (vals b).activationEligibilityEpoch) ||
    (decide ((vals a).activationEligibilityEpoch = (vals b).activationEligibilityEpoch) &&
      decide (a ≤ b))

/-- Insert an index into a list sorted by `activationOrderLe`. -/
def insertActivationIndex (vals : Nat → Validator) (a : Nat) : List Nat → List Nat
  | [] => [a]
  | b :: rest =>
    if activationOrderLe vals a b then a :: b :: rest
    else b :: insertActivationIndex vals a rest

/-- Model of the sort at epochProcess.ts lines 265-267: sort the eligible
indices ascending by (activationEligibilityEpoch, index). -/
def sortActivationIndices (vals : Nat → Validator) : List Nat → List Nat
  | [] => []
  | a :: rest => insertActivationIndex vals a (sortActivationIndices vals rest)

/-- The parts of IEpochProcess the claims are about. -/
structure EpochProcessModel where
  indicesToSlash : List Nat
  indicesEligibleForActivationQueue : List Nat
  indicesEligibleForActivation : List Nat
  indicesToEject : List Nat
  statusFlagsScan : List Nat
  totalActiveStake : Nat

/-- Dense lookup of validators by index, as the scan's flat copy of
state.validators: out-of-range indices never occur in the source. -/
def validatorAt (vs : List Validator) (i : Nat) : Validator :=
  vs.getD i (Validator.mk 0 false 0 0 0 0)

/-- The single scan of beforeProcessEpoch (epochProcess.ts lines 179-267)
restricted to the fields the claims concern: the four index lists, the
per-validator scan flags, and the floored total active stake.
`indicesEligibleForActivation` is sorted ascending by
(activationEligibilityEpoch, index) as at lines 263-267. -/
def beforeProcessEpochScan (ejectionBalance currentEpoch prevEpoch : Nat)
    (vs : List Validator) : EpochProcessModel :=
  { indicesToSlash := scanIndices (slashScanCond currentEpoch) 0 vs
    indicesEligibleForActivationQueue :=
      scanIndices
        (fun v => decide (registryBucket ejectionBalance currentEpoch v =
          some RegistryBucket.activationQueue)) 0 vs
    indicesEligibleForActivation :=
      sortActivationIndices (validatorAt vs)
        (scanIndices
          (fun v => decide (registryBucket ejectionBalance currentEpoch v =
            some RegistryBucket.activation)) 0 vs)
    indicesToEject :=
      scanIndices
        (fun v => decide (registryBucket ejectionBalance currentEpoch v =
          some RegistryBucket.eject)) 0 vs
    statusFlagsScan := vs.map (scanStatusFlags prevEpoch)
    totalActiveStake := flooredAtIncrement (sumActiveStake currentEpoch vs) }

/-! ### Unslashed stake sums (epochProcess.ts lines 303-338) -/

/-- Fold of lines 314-330 for one marker set: add the validator's effective
balance when its status flags contain all of `markers`. -/
def stakeByMarkers (markers : Nat) : List Nat → List Nat → Nat
  | flags :: fs, bal :: bs =>
    (if hasMarkers flags markers then bal else 0) + stakeByMarkers markers fs bs
  | _, _ => 0

/-- The four unslashed stake sums of the epoch summary. -/
structure EpochStakeTotals where
  prevSourceUnslStake : Nat
  prevTargetUnslStake : Nat
  prevHeadUnslStake : Nat
  currTargetUnslStake : Nat

/-- epochProcess.ts lines 303-338: the four unslashed attester stake sums,
each floored at one increment. `statusFlags` are the post-attribution flags
and `effBalances` the epochCtx effective-balance vector, in index order. -/
def epochStakeTotals (statusFlags effBalances : List Nat) : EpochStakeTotals :=
  { prevSourceUnslStake :=
      flooredAtIncrement
        (stakeByMarkers (FLAG_PREV_SOURCE_ATTESTER ||| FLAG_UNSLASHED) statusFlags effBalances)
    prevTargetUnslStake :=
      flooredAtIncrement
        (stakeByMarkers (FLAG_PREV_TARGET_ATTESTER ||| FLAG_UNSLASHED) statusFlags effBalances)
    prevHeadUnslStake :=
      flooredAtIncrement
        (stakeByMarkers (FLAG_PREV_HEAD_ATTESTER ||| FLAG_UNSLASHED) statusFlags effBalances)
    currTargetUnslStake :=
      flooredAtIncrement
        (stakeByMarkers (FLAG_CURR_TARGET_ATTESTER ||| FLAG_UNSLASHED) statusFlags effBalances) }

/-! ### processSlashings (epoch/processSlashings.ts) -/

/-- Modelled from the spec: decreaseBalance (util, not in the source tree)
subtracts saturating at zero ("Balance decreases saturate at zero", spec
section 4.7); Nat subtraction is exactly that. -/
def decreaseBalance (balances : List Nat) (index amount : Nat) : List Nat :=
  balances.set index (balances.getD index 0 - amount)

/-- The per-validator penalty of processSlashings.ts lines 46-47:
penaltyNumerator = effectiveBalance / increment * adjustedTotalSlashingBalance,
penalty = penaltyNumerator / totalBalance * increment (floor divisions, in
this order). -/
def slashingPenalty (totalBalance adjustedTotalSlashingBalance effectiveBalance : Nat) : Nat :=
  effectiveBalance / EFFECTIVE_BALANCE_INCREMENT * adjustedTotalSlashingBalance
    / totalBalance * EFFECTIVE_BALANCE_INCREMENT

/-- The state as touched by processSlashings: the slashings vector and the
balances sequence. -/
structure SlashingsStateModel where
  slashings : List Nat
  balances : List Nat
deriving DecidableEq

/-- processSlashingsAllForks (processSlashings.ts lines 21-53). Early-returns
when indicesToSlash is empty, before state.slashings is summed. `isPhase0`
selects the proportional slashing multiplier, `effBal` is the
epochCtx.effectiveBalances vector, `totalActiveStake` comes from the epoch
summary. -/
def processSlashingsAllForks (isPhase0 : Bool) (st : SlashingsStateModel)
    (effBal : Nat → Nat) (indicesToSlash : List Nat) (totalActiveStake : Nat) :
    SlashingsStateModel :=
  if indicesToSlash.isEmpty then st
  else
    let totalSlashings := st.slashings.foldl (· + ·) 0
    let proportionalSlashingMultiplier :=
      if isPhase0 then PROPORTIONAL_SLASHING_MULTIPLIER
      else PROPORTIONAL_SLASHING_MULTIPLIER_ALTAIR
    let adjustedTotalSlashingBalance :=
      min (totalSlashings * proportionalSlashingMultiplier) totalActiveStake
    { st with
      balances :=
        indicesToSlash.foldl
          (fun bals index =>
            decreaseBalance bals index
              (slashingPenalty totalActiveStake adjustedTotalSlashingBalance (effBal index)))
          st.balances }

/-! ### processRegistryUpdates (epoch/processRegistryUpdates.ts lines 35-45) -/

/-- Modelled from the spec: compute_activation_exit_epoch =
epoch + 1 + MAX_SEED_LOOKAHEAD (the util helper is not in the source tree). -/
def computeActivationExitEpoch (epoch : Nat) : Nat :=
  epoch + 1 + MAX_SEED_LOOKAHEAD

/-- The dequeue loop body (processRegistryUpdates.ts lines 37-45): walk the
given indices, break at the first whose activationEligibilityEpoch exceeds
finalityEpoch, and return the indices actually activated. The break
condition reads epochProcess.validators (the pre-transition flat copy),
modelled by `vals`. -/
def activationDequeue (finalityEpoch : Nat) (vals : Nat → Validator) :
    List Nat → List Nat
  | [] => []
  | i :: rest =>
    if finalityEpoch < (vals i).activationEligibilityEpoch then []
    else i :: activationDequeue finalityEpoch vals rest

/-- The indices activated by processRegistryUpdates: the dequeue loop runs
over `indicesEligibleForActivation.slice(0, churnLimit)`. -/
def registryActivatedIndices (churnLimit finalityEpoch : Nat) (vals : Nat → Validator)
    (indicesEligibleForActivation : List Nat) : List Nat :=
  activationDequeue finalityEpoch vals (indicesEligibleForActivation.take churnLimit)

/-- The activation-dequeue part of processRegistryUpdates as a map on the
validator registry: each activated index gets
activationEpoch = computeActivationExitEpoch(currentEpoch); every other
validator is untouched. -/
def processRegistryActivations (churnLimit finalityEpoch currentEpoch : Nat)
    (vals : Nat → Validator) (indicesEligibleForActivation : List Nat) :
    Nat → Validator :=
  fun j =>
    if j ∈ registryActivatedIndices churnLimit finalityEpoch vals indicesEligibleForActivation
    then { vals j with activationEpoch := computeActivationExitEpoch currentEpoch }
    else vals j

/-! ### processEffectiveBalanceUpdates (epochProcess.ts lines 380-403) -/

/-- HYSTERESIS_INCREMENT of line 385. -/
def HYSTERESIS_INCREMENT : Nat := EFFECTIVE_BALANCE_INCREMENT / HYSTERESIS_QUOTIENT

/-- DOWNWARD_THRESHOLD of line 386. -/
def DOWNWARD_THRESHOLD : Nat := HYSTERESIS_INCREMENT * HYSTERESIS_DOWNWARD_MULTIPLIER

/-- UPWARD_THRESHOLD of line 387. -/
def UPWARD_THRESHOLD : Nat := HYSTERESIS_INCREMENT * HYSTERESIS_UPWARD_MULTIPLIER

/-- The per-validator body of processEffectiveBalanceUpdates (lines 390-402):
the new effective balance given the raw balance. In the source
`balance - UPWARD_THRESHOLD` is a bigint that may go negative, in which case
the comparison `effectiveBalance < ...` is false; truncated Nat subtraction
gives the same comparison result, so the embedding agrees. -/
def updateEffectiveBalance (balance effectiveBalance : Nat) : Nat :=
  if effectiveBalance > balance + DOWNWARD_THRESHOLD ∨
      (effectiveBalance < MAX_EFFECTIVE_BALANCE ∧
        effectiveBalance < balance - UPWARD_THRESHOLD) then
    min (balance - balance % EFFECTIVE_BALANCE_INCREMENT) MAX_EFFECTIVE_BALANCE
  else
    effectiveBalance

/-- processEffectiveBalanceUpdates as a whole: the forEach over the balances
array updating validator i from balance i (the source iterates the flat
balances with their indices; here the two sequences are zipped in index
order). -/
def processEffectiveBalanceUpdates (balances : List Nat) (validators : List Validator) :
    List Validator :=
  List.zipWith
    (fun balance v => { v with effectiveBalance := updateEffectiveBalance balance v.effectiveBalance })
    balances validators

/-- The effective-balance invariant of spec section 8:
0 <= effective_balance <= MAX_EFFECTIVE_BALANCE, multiple of the increment. -/
def effectiveBalanceInvariant (v : Validator) : Prop :=
  0 ≤ v.effectiveBalance ∧ v.effectiveBalance ≤ MAX_EFFECTIVE_BALANCE ∧
    v.effectiveBalance % EFFECTIVE_BALANCE_INCREMENT = 0

instance (v : Validator) : Decidable (effectiveBalanceInvariant v) := by
  unfold effectiveBalanceInvariant; infer_instance

/-! ### process_slots facade (spec section 4.6)

Modelled from the spec: the process_slots implementation is not in the source
tree (only its spec-test callers are). "process_slots(state, target_slot):
requires state.slot < target_slot. [...] Fails with TransitionError::SlotBehind
if target_slot <= state.slot." -/

/-- Modelled from the spec: the error taxonomy of spec section 7. -/
inductive TransitionError where
  | invariantViolation
  | slotBehind
  | forkMismatch
  | arithmeticOverflow
deriving DecidableEq

/-- The state as seen by the facade loop: only the slot counter matters for
the claim. -/
structure SlotsStateModel where
  slot : Nat
deriving DecidableEq

/-- One iteration of the facade loop, advancing the slot counter by one
(steps 1-4 of spec section 4.6; the per-slot bookkeeping and the epoch
transition fired at epoch boundaries do not touch `slot`). -/
def advanceOneSlot (st : SlotsStateModel) : SlotsStateModel :=
  { st with slot := st.slot + 1 }

/-- Run the facade loop n times. -/
def advanceSlots : Nat → SlotsStateModel → SlotsStateModel
  | 0, st => st
  | n + 1, st => advanceSlots n (advanceOneSlot st)

/-- Modelled from the spec: process_slots(state, target_slot) fails with
SlotBehind when target_slot <= state.slot, before any slot advancement;
otherwise it advances slot by slot up to target_slot. -/
def processSlots (st : SlotsStateModel) (targetSlot : Nat) :
    Except TransitionError SlotsStateModel :=
  if targetSlot ≤ st.slot then Except.error TransitionError.slotBehind
  else Except.ok (advanceSlots (targetSlot - st.slot) st)

/-! ### Helper lemmas -/

theorem flooredAtIncrement_le (x : Nat) :
    EFFECTIVE_BALANCE_INCREMENT ≤ flooredAtIncrement x := by
  unfold flooredAtIncrement
  split <;> omega

/-! ### C9: empty indicesToSlash -/

/-- C9: if the epoch summary's indicesToSlash list is empty,
processSlashingsAllForks returns the state unchanged, and its balances do
not depend on the slashings vector (which is only summed after the early
return). -/
theorem processSlashings_empty_noop (isPhase0 : Bool) (st : SlashingsStateModel)
    (effBal : Nat → Nat) (totalActiveStake : Nat) (s1 s2 bal : List Nat) :
    processSlashingsAllForks isPhase0 st effBal [] totalActiveStake = st ∧
    (processSlashingsAllForks isPhase0 (SlashingsStateModel.mk s1 bal) effBal [] totalActiveStake).balances =
      (processSlashingsAllForks isPhase0 (SlashingsStateModel.mk s2 bal) effBal [] totalActiveStake).balances :=
  ⟨rfl, rfl⟩

/-! ### C10: a slashing penalty never exceeds the effective balance -/

/-- C10: for every slashed index, the penalty computed by processSlashings is
at most the validator's effective balance: the adjusted total slashing
balance min(totalSlashings * multiplier, totalBalance) is at most
totalBalance, and the floor divisions only decrease the result. -/
theorem slashingPenalty_le_effectiveBalance
    (totalBalance totalSlashings multiplier effectiveBalance : Nat) :
    slashingPenalty totalBalance (min (totalSlashings * multiplier) totalBalance)
      effectiveBalance ≤ effectiveBalance := by
  unfold slashingPenalty
  have h1 : effectiveBalance / EFFECTIVE_BALANCE_INCREMENT *
      min (totalSlashings * multiplier) totalBalance ≤
      effectiveBalance / EFFECTIVE_BALANCE_INCREMENT * totalBalance :=
    Nat.mul_le_mul_left _ (min_le_right _ _)
  have h2 : effectiveBalance / EFFECTIVE_BALANCE_INCREMENT *
      min (totalSlashings * multiplier) totalBalance / totalBalance ≤
      effectiveBalance / EFFECTIVE_BALANCE_INCREMENT * totalBalance / totalBalance :=
    Nat.div_le_div_right h1
  have h3 : effectiveBalance / EFFECTIVE_BALANCE_INCREMENT * totalBalance / totalBalance ≤
      effectiveBalance / EFFECTIVE_BALANCE_INCREMENT := by
    rcases Nat.eq_zero_or_pos totalBalance with h0 | h0
    · simp [h0]
    · exact le_of_eq (Nat.mul_div_cancel _ h0)
  calc effectiveBalance / EFFECTIVE_BALANCE_INCREMENT *
        min (totalSlashings * multiplier) totalBalance / totalBalance *
        EFFECTIVE_BALANCE_INCREMENT
      ≤ effectiveBalance / EFFECTIVE_BALANCE_INCREMENT * EFFECTIVE_BALANCE_INCREMENT :=
        Nat.mul_le_mul_right _ (h2.trans h3)
    _ ≤ effectiveBalance := Nat.div_mul_le_self _ _

/-! ### C8: process_slots SlotBehind -/

/-- C8: processSlots fails with SlotBehind exactly when
targetSlot <= state.slot, and in that case returns the error before any slot
advancement (the second conjunct exhibits the full behavior: the advancing
loop runs only in the other branch). -/
theorem processSlots_slotBehind (st : SlotsStateModel) (targetSlot : Nat) :
    (processSlots st targetSlot = Except.error TransitionError.slotBehind ↔
      targetSlot ≤ st.slot) ∧
    processSlots st targetSlot =
      (if targetSlot ≤ st.slot then Except.error TransitionError.slotBehind
       else Except.ok (advanceSlots (targetSlot - st.slot) st)) := by
  refine ⟨?_, rfl⟩
  by_cases h : targetSlot ≤ st.slot
  · simp [processSlots, h]
  · simp [processSlots, h]

/-! ### C6: stake totals are floored at one increment -/

/-- C6: the epoch summary's total active stake and each of the four unslashed
stake sums are at least EFFECTIVE_BALANCE_INCREMENT, for every input
(including zero active validators), so later divisions by them never divide
by zero. -/
theorem epochSummary_stake_floors (ejectionBalance currentEpoch prevEpoch : Nat)
    (vs : List Validator) (statusFlags effBalances : List Nat) :
    EFFECTIVE_BALANCE_INCREMENT ≤
      (beforeProcessEpochScan ejectionBalance currentEpoch prevEpoch vs).totalActiveStake ∧
    EFFECTIVE_BALANCE_INCREMENT ≤ (epochStakeTotals statusFlags effBalances).prevSourceUnslStake ∧
    EFFECTIVE_BALANCE_INCREMENT ≤ (epochStakeTotals statusFlags effBalances).prevTargetUnslStake ∧
    EFFECTIVE_BALANCE_INCREMENT ≤ (epochStakeTotals statusFlags effBalances).prevHeadUnslStake ∧
    EFFECTIVE_BALANCE_INCREMENT ≤ (epochStakeTotals statusFlags effBalances).currTargetUnslStake :=
  ⟨flooredAtIncrement_le _, flooredAtIncrement_le _, flooredAtIncrement_le _,
    flooredAtIncrement_le _, flooredAtIncrement_le _⟩

/-! ### C5: effective-balance hysteresis -/

/-- C5: processEffectiveBalanceUpdates changes a validator's effective
balance e (raw balance b) iff e > b + DOWNWARD_THRESHOLD or
(e < MAX_EFFECTIVE_BALANCE and e < b - UPWARD_THRESHOLD); the written value
is min(b - b % increment, MAX_EFFECTIVE_BALANCE); 32 ETH with balance
31.95 ETH is unchanged, and with balance 31.74 ETH becomes 31 ETH. -/
theorem updateEffectiveBalance_hysteresis (balance e : Nat) :
    (updateEffectiveBalance balance e ≠ e ↔
      (e > balance + DOWNWARD_THRESHOLD ∨
        (e < MAX_EFFECTIVE_BALANCE ∧ e < balance - UPWARD_THRESHOLD))) ∧
    updateEffectiveBalance balance e =
      (if e > balance + DOWNWARD_THRESHOLD ∨
          (e < MAX_EFFECTIVE_BALANCE ∧ e < balance - UPWARD_THRESHOLD) then
        min (balance - balance % EFFECTIVE_BALANCE_INCREMENT) MAX_EFFECTIVE_BALANCE
      else e) ∧
    updateEffectiveBalance 31950000000 32000000000 = 32000000000 ∧
    updateEffectiveBalance 31740000000 32000000000 = 31000000000 := by
  refine ⟨?_, rfl, by decide, by decide⟩
  have hD : DOWNWARD_THRESHOLD = 250000000 := rfl
  have hU : UPWARD_THRESHOLD = 1250000000 := rfl
  have hM : MAX_EFFECTIVE_BALANCE = 32000000000 := rfl
  have hI : EFFECTIVE_BALANCE_INCREMENT = 1000000000 := rfl
  by_cases h : e > balance + DOWNWARD_THRESHOLD ∨
      (e < MAX_EFFECTIVE_BALANCE ∧ e < balance - UPWARD_THRESHOLD)
  · rw [updateEffectiveBalance, if_pos h]
    simp only [h, iff_true]
    rw [hD, hU, hM] at h
    rw [hM, hI]
    omega
  · rw [updateEffectiveBalance, if_neg h]
    simp [h]

/-! ### C7: the effective-balance invariant is preserved -/

theorem updateEffectiveBalance_bounds (balance e : Nat)
    (he1 : e ≤ MAX_EFFECTIVE_BALANCE) (he2 : e % EFFECTIVE_BALANCE_INCREMENT = 0) :
    updateEffectiveBalance balance e ≤ MAX_EFFECTIVE_BALANCE ∧
      updateEffectiveBalance balance e % EFFECTIVE_BALANCE_INCREMENT = 0 := by
  have hM : MAX_EFFECTIVE_BALANCE = 32000000000 := rfl
  have hI : EFFECTIVE_BALANCE_INCREMENT = 1000000000 := rfl
  rw [updateEffectiveBalance]
  split
  · rw [hM, hI]
    constructor
    · omega
    · omega
  · exact ⟨he1, he2⟩

/-- C7: if every validator of the pre-state has an effective balance that is
at most MAX_EFFECTIVE_BALANCE and a multiple of EFFECTIVE_BALANCE_INCREMENT,
then so does every validator after processEffectiveBalanceUpdates, the only
writer of effective balances in the epoch transition: it only ever writes
values of the form min(b - b % increment, MAX_EFFECTIVE_BALANCE). -/
theorem processEffectiveBalanceUpdates_invariant (balances : List Nat)
    (validators : List Validator)
    (hpre : validators.Forall effectiveBalanceInvariant) :
    (processEffectiveBalanceUpdates balances validators).Forall effectiveBalanceInvariant := by
  induction balances generalizing validators with
  | nil => simp [processEffectiveBalanceUpdates]
  | cons b bs ih =>
    cases validators with
    | nil => simp [processEffectiveBalanceUpdates]
    | cons v vs =>
      rw [List.forall_cons] at hpre
      rw [processEffectiveBalanceUpdates, List.zipWith_cons_cons, List.forall_cons]
      rcases hpre with ⟨⟨_, hv1, hv2⟩, hvs⟩
      refine ⟨?_, ih vs hvs⟩
      rcases updateEffectiveBalance_bounds b v.effectiveBalance hv1 hv2 with ⟨h1, h2⟩
      exact ⟨Nat.zero_le _, h1, h2⟩

/-- Witness for C7 at a concrete input: one validator at 32 ETH whose raw
balance drifted to 31.74 ETH. -/
theorem processEffectiveBalanceUpdates_invariant_witness :
    (processEffectiveBalanceUpdates [31740000000]
      [Validator.mk 32000000000 false 0 0 0 0]).Forall effectiveBalanceInvariant :=
  processEffectiveBalanceUpdates_invariant [31740000000]
    [Validator.mk 32000000000 false 0 0 0 0] (by simp [List.Forall]; decide)

/-! ### Membership in the scan's index lists -/

theorem scanIndices_mem (p : Validator → Bool) (vs : List Validator) (k i : Nat) :
    i ∈ scanIndices p k vs ↔
      ∃ j, ∃ h : j < vs.length, i = k + j ∧ p (vs.get ⟨j, h⟩) = true := by
  induction vs generalizing k with
  | nil => simp [scanIndices]
  | cons v rest ih =>
    rw [scanIndices]
    by_cases hp : p v = true
    · rw [if_pos hp, List.mem_cons, ih]
      constructor
      · rintro (rfl | ⟨j, hj, rfl, hpj⟩)
        · exact ⟨0, by simp, by omega, by simpa using hp⟩
        · refine ⟨j + 1, by simpa using Nat.succ_lt_succ hj, by omega, ?_⟩
          simpa [List.get_cons_succ] using hpj
      · rintro ⟨j, hj, rfl, hpj⟩
        cases j with
        | zero => left; omega
        | succ j2 =>
          right
          refine ⟨j2, Nat.lt_of_succ_lt_succ (by simpa using hj), by omega, ?_⟩
          simpa [List.get_cons_succ] using hpj
    · rw [if_neg hp, ih]
      constructor
      · rintro ⟨j, hj, rfl, hpj⟩
        refine ⟨j + 1, by simpa using Nat.succ_lt_succ hj, by omega, ?_⟩
        simpa [List.get_cons_succ] using hpj
      · rintro ⟨j, hj, rfl, hpj⟩
        cases j with
        | zero => exact absurd (by simpa using hpj) hp
        | succ j2 =>
          refine ⟨j2, Nat.lt_of_succ_lt_succ (by simpa using hj), by omega, ?_⟩
          simpa [List.get_cons_succ] using hpj

theorem scanIndices_mem_zero (p : Validator → Bool) (vs : List Validator) (i : Nat) :
    i ∈ scanIndices p 0 vs ↔ ∃ h : i < vs.length, p (vs.get ⟨i, h⟩) = true := by
  rw [scanIndices_mem]
  constructor
  · rintro ⟨j, hj, hij, hpj⟩
    have hji : j = i := by omega
    subst hji
    exact ⟨hj, hpj⟩
  · rintro ⟨h, hp⟩
    exact ⟨i, h, by omega, hp⟩

theorem mem_insertActivationIndex (vals : Nat → Validator) (a i : Nat) (l : List Nat) :
    i ∈ insertActivationIndex vals a l ↔ i = a ∨ i ∈ l := by
  induction l with
  | nil => simp [insertActivationIndex]
  | cons b rest ih =>
    rw [insertActivationIndex]
    split
    · simp [List.mem_cons]
    · simp only [List.mem_cons, ih]
      tauto

theorem mem_sortActivationIndices (vals : Nat → Validator) (l : List Nat) (i : Nat) :
    i ∈ sortActivationIndices vals l ↔ i ∈ l := by
  induction l with
  | nil => simp [sortActivationIndices]
  | cons a rest ih =>
    rw [sortActivationIndices, mem_insertActivationIndex, ih, List.mem_cons]

/-! ### C2: slashing-window scan branch (corrected) -/

/-- A slashed validator whose withdrawableEpoch is outside the slashing
window: with currentEpoch = 0 the window epoch is
EPOCHS_PER_SLASHINGS_VECTOR / 2 = 4096, and this validator withdraws at 7. -/
def slashedOutsideWindow : Validator :=
  Validator.mk 32000000000 true 0 0 FAR_FUTURE_EPOCH 7

/-- C2 counterexample: for a slashed validator whose withdrawableEpoch
differs from currentEpoch + EPOCHS_PER_SLASHINGS_VECTOR / 2, the scan
neither adds its index to indicesToSlash nor sets its UNSLASHED flag, so
"otherwise the UNSLASHED flag is set" fails at this input. -/
theorem scan_slashed_outside_window_no_unslashed :
    0 ∉ (beforeProcessEpochScan 16000000000 0 0 [slashedOutsideWindow]).indicesToSlash ∧
    hasMarkers (scanStatusFlags 0 slashedOutsideWindow) FLAG_UNSLASHED = false := by
  constructor
  · decide
  · decide

/-- C2 amended: the scan adds index i to indicesToSlash iff validator i is
slashed with withdrawableEpoch = currentEpoch + EPOCHS_PER_SLASHINGS_VECTOR/2,
and sets the UNSLASHED flag iff the validator is not slashed; a slashed
validator outside the slashing window gets neither. -/
theorem scan_indicesToSlash_and_unslashed (ejectionBalance currentEpoch prevEpoch i : Nat)
    (vs : List Validator) (v : Validator) :
    (i ∈ (beforeProcessEpochScan ejectionBalance currentEpoch prevEpoch vs).indicesToSlash ↔
      ∃ h : i < vs.length, (vs.get ⟨i, h⟩).slashed = true ∧
        currentEpoch + EPOCHS_PER_SLASHINGS_VECTOR / 2 = (vs.get ⟨i, h⟩).withdrawableEpoch) ∧
    (hasMarkers (scanStatusFlags prevEpoch v) FLAG_UNSLASHED = true ↔ v.slashed = false) := by
  constructor
  · rw [show (beforeProcessEpochScan ejectionBalance currentEpoch prevEpoch vs).indicesToSlash =
        scanIndices (slashScanCond currentEpoch) 0 vs from rfl]
    rw [scanIndices_mem_zero]
    constructor
    · rintro ⟨h, hp⟩
      rw [slashScanCond, Bool.and_eq_true, decide_eq_true_iff] at hp
      exact ⟨h, hp⟩
    · rintro ⟨h, h1, h2⟩
      exact ⟨h, by rw [slashScanCond, Bool.and_eq_true, decide_eq_true_iff]; exact ⟨h1, h2⟩⟩
  · have key : ∀ b c : Bool,
        hasMarkers ((if b then 0 else FLAG_UNSLASHED) |||
          (if c then FLAG_ELIGIBLE_ATTESTER else 0)) FLAG_UNSLASHED = !b := by decide
    rw [scanStatusFlags, key]
    cases v.slashed <;> simp


/-! ### C4: the three registry buckets are mutually exclusive -/

theorem mem_indicesEligibleForActivationQueue (ejectionBalance currentEpoch prevEpoch i : Nat)
    (vs : List Validator) :
    i ∈ (beforeProcessEpochScan ejectionBalance currentEpoch prevEpoch vs).indicesEligibleForActivationQueue ↔
      ∃ h : i < vs.length,
        registryBucket ejectionBalance currentEpoch (vs.get ⟨i, h⟩) =
          some RegistryBucket.activationQueue := by
  rw [show (beforeProcessEpochScan ejectionBalance currentEpoch prevEpoch vs).indicesEligibleForActivationQueue =
      scanIndices (fun v => decide (registryBucket ejectionBalance currentEpoch v =
        some RegistryBucket.activationQueue)) 0 vs from rfl]
  rw [scanIndices_mem_zero]
  simp only [decide_eq_true_iff]

theorem mem_indicesEligibleForActivation (ejectionBalance currentEpoch prevEpoch i : Nat)
    (vs : List Validator) :
    i ∈ (beforeProcessEpochScan ejectionBalance currentEpoch prevEpoch vs).indicesEligibleForActivation ↔
      ∃ h : i < vs.length,
        registryBucket ejectionBalance currentEpoch (vs.get ⟨i, h⟩) =
          some RegistryBucket.activation := by
  rw [show (beforeProcessEpochScan ejectionBalance currentEpoch prevEpoch vs).indicesEligibleForActivation =
      sortActivationIndices (validatorAt vs)
        (scanIndices (fun v => decide (registryBucket ejectionBalance currentEpoch v =
          some RegistryBucket.activation)) 0 vs) from rfl]
  rw [mem_sortActivationIndices, scanIndices_mem_zero]
  simp only [decide_eq_true_iff]

theorem mem_indicesToEject (ejectionBalance currentEpoch prevEpoch i : Nat)
    (vs : List Validator) :
    i ∈ (beforeProcessEpochScan ejectionBalance currentEpoch prevEpoch vs).indicesToEject ↔
      ∃ h : i < vs.length,
        registryBucket ejectionBalance currentEpoch (vs.get ⟨i, h⟩) =
          some RegistryBucket.eject := by
  rw [show (beforeProcessEpochScan ejectionBalance currentEpoch prevEpoch vs).indicesToEject =
      scanIndices (fun v => decide (registryBucket ejectionBalance currentEpoch v =
        some RegistryBucket.eject)) 0 vs from rfl]
  rw [scanIndices_mem_zero]
  simp only [decide_eq_true_iff]

/-- C4: every validator index lands in at most one of
indicesEligibleForActivationQueue, indicesEligibleForActivation and
indicesToEject, and membership is decided by the if/else ladder of
registryBucket in exactly that order: the activation test carries the
negation of the activation-queue test, and the ejection test the negations
of both. -/
theorem scan_registry_buckets_exclusive (ejectionBalance currentEpoch prevEpoch i : Nat)
    (vs : List Validator) (v : Validator) :
    (registryBucket ejectionBalance currentEpoch v = some RegistryBucket.activationQueue ↔
      (v.activationEligibilityEpoch = FAR_FUTURE_EPOCH ∧
        v.effectiveBalance = MAX_EFFECTIVE_BALANCE)) ∧
    (registryBucket ejectionBalance currentEpoch v = some RegistryBucket.activation ↔
      (¬(v.activationEligibilityEpoch = FAR_FUTURE_EPOCH ∧
          v.effectiveBalance = MAX_EFFECTIVE_BALANCE) ∧
        (v.activationEpoch = FAR_FUTURE_EPOCH ∧
          v.activationEligibilityEpoch ≤ currentEpoch))) ∧
    (registryBucket ejectionBalance currentEpoch v = some RegistryBucket.eject ↔
      (¬(v.activationEligibilityEpoch = FAR_FUTURE_EPOCH ∧
          v.effectiveBalance = MAX_EFFECTIVE_BALANCE) ∧
        ¬(v.activationEpoch = FAR_FUTURE_EPOCH ∧
          v.activationEligibilityEpoch ≤ currentEpoch) ∧
        (isActiveValidator v currentEpoch = true ∧ v.exitEpoch = FAR_FUTURE_EPOCH ∧
          v.effectiveBalance ≤ ejectionBalance))) ∧
    ¬(i ∈ (beforeProcessEpochScan ejectionBalance currentEpoch prevEpoch vs).indicesEligibleForActivationQueue ∧
      i ∈ (beforeProcessEpochScan ejectionBalance currentEpoch prevEpoch vs).indicesEligibleForActivation) ∧
    ¬(i ∈ (beforeProcessEpochScan ejectionBalance currentEpoch prevEpoch vs).indicesEligibleForActivationQueue ∧
      i ∈ (beforeProcessEpochScan ejectionBalance currentEpoch prevEpoch vs).indicesToEject) ∧
    ¬(i ∈ (beforeProcessEpochScan ejectionBalance currentEpoch prevEpoch vs).indicesEligibleForActivation ∧
      i ∈ (beforeProcessEpochScan ejectionBalance currentEpoch prevEpoch vs).indicesToEject) := by
  refine ⟨?_, ?_, ?_, ?_, ?_, ?_⟩
  · rw [registryBucket]
    split
    · simp_all
    · split
      · simp_all
      · split <;> simp_all
  · rw [registryBucket]
    split
    · simp_all
    · split
      · simp_all
      · split <;> simp_all
  · rw [registryBucket]
    split
    · simp_all
    · split
      · simp_all
      · split <;> simp_all
  · rintro ⟨h1, h2⟩
    rw [mem_indicesEligibleForActivationQueue] at h1
    rw [mem_indicesEligibleForActivation] at h2
    rcases h1 with ⟨hl, hb1⟩
    rcases h2 with ⟨hl2, hb2⟩
    rw [hb1] at hb2
    simp at hb2
  · rintro ⟨h1, h2⟩
    rw [mem_indicesEligibleForActivationQueue] at h1
    rw [mem_indicesToEject] at h2
    rcases h1 with ⟨hl, hb1⟩
    rcases h2 with ⟨hl2, hb2⟩
    rw [hb1] at hb2
    simp at hb2
  · rintro ⟨h1, h2⟩
    rw [mem_indicesEligibleForActivation] at h1
    rw [mem_indicesToEject] at h2
    rcases h1 with ⟨hl, hb1⟩
    rcases h2 with ⟨hl2, hb2⟩
    rw [hb1] at hb2
    simp at hb2

/-! ### C3: activation dequeue up to churn limit -/

theorem activationDequeue_eq_takeWhile (finalityEpoch : Nat) (vals : Nat → Validator)
    (l : List Nat) :
    activationDequeue finalityEpoch vals l =
      l.takeWhile (fun i => decide ((vals i).activationEligibilityEpoch ≤ finalityEpoch)) := by
  induction l with
  | nil => rfl
  | cons i rest ih =>
    rw [activationDequeue, List.takeWhile_cons]
    by_cases h : (vals i).activationEligibilityEpoch ≤ finalityEpoch
    · rw [if_neg (by omega), if_pos (by simpa using h), ih]
    · rw [if_pos (by omega), if_neg (by simpa using h)]

/-- The 10 queued validators of the spec's activation-queue scenario: all
have activationEligibilityEpoch <= 10 (validator j becomes eligible at epoch
10 - j, so the (activationEligibilityEpoch, index) order is 9, 8, ..., 0),
have not been activated yet, and are fully topped up below
MAX_EFFECTIVE_BALANCE is irrelevant since activationEligibilityEpoch is
finite. -/
def exampleQueue : List Validator :=
  (List.range 10).map (fun j =>
    Validator.mk 32000000000 false (10 - j) FAR_FUTURE_EPOCH FAR_FUTURE_EPOCH FAR_FUTURE_EPOCH)

/-- C3: of the sorted indicesEligibleForActivation only the first churnLimit
entries are considered, the walk stops at the first whose
activationEligibilityEpoch exceeds the finalized epoch, every index before
that point gets activationEpoch = computeActivationExitEpoch(currentEpoch)
while all others keep their validator record; and in the concrete scenario
(churnLimit 4, ten queued validators all finalized-eligible at epoch 10)
exactly the four smallest under the (activationEligibilityEpoch, index)
order are activated. -/
theorem processRegistryUpdates_activation_dequeue
    (churnLimit finalityEpoch currentEpoch j : Nat) (vals : Nat → Validator)
    (inds : List Nat) :
    registryActivatedIndices churnLimit finalityEpoch vals inds =
      (inds.take churnLimit).takeWhile
        (fun i => decide ((vals i).activationEligibilityEpoch ≤ finalityEpoch)) ∧
    processRegistryActivations churnLimit finalityEpoch currentEpoch vals inds j =
      (if j ∈ registryActivatedIndices churnLimit finalityEpoch vals inds then
        { vals j with activationEpoch := computeActivationExitEpoch currentEpoch }
      else vals j) ∧
    (beforeProcessEpochScan 16000000000 10 9 exampleQueue).indicesEligibleForActivation =
      [9, 8, 7, 6, 5, 4, 3, 2, 1, 0] ∧
    registryActivatedIndices 4 10 (validatorAt exampleQueue)
      ((beforeProcessEpochScan 16000000000 10 9 exampleQueue).indicesEligibleForActivation) =
      [9, 8, 7, 6] ∧
    processRegistryActivations 4 10 10 (validatorAt exampleQueue)
      ((beforeProcessEpochScan 16000000000 10 9 exampleQueue).indicesEligibleForActivation) 9 =
      { validatorAt exampleQueue 9 with activationEpoch := computeActivationExitEpoch 10 } ∧
    processRegistryActivations 4 10 10 (validatorAt exampleQueue)
      ((beforeProcessEpochScan 16000000000 10 9 exampleQueue).indicesEligibleForActivation) 5 =
      validatorAt exampleQueue 5 := by
  refine ⟨activationDequeue_eq_takeWhile _ _ _, rfl, by decide, by decide, by decide, by decide⟩

/-! ### C1: the slashing penalty formula (corrected example) -/

theorem getD_set_ne (l : List Nat) (i j x : Nat) (h : i ≠ j) :
    (l.set i x).getD j 0 = l.getD j 0 := by
  induction l generalizing i j with
  | nil => rfl
  | cons a rest ih =>
    cases i with
    | zero =>
      cases j with
      | zero => exact absurd rfl h
      | succ j2 => rfl
    | succ i2 =>
      cases j with
      | zero => rfl
      | succ j2 =>
        rw [List.set_cons_succ, List.getD_cons_succ, List.getD_cons_succ]
        exact ih i2 j2 (by omega)

theorem getD_set_self (l : List Nat) (i x : Nat) (h : i < l.length) :
    (l.set i x).getD i 0 = x := by
  induction l generalizing i with
  | nil => simp at h
  | cons a rest ih =>
    cases i with
    | zero => rfl
    | succ i2 =>
      rw [List.set_cons_succ, List.getD_cons_succ]
      exact ih i2 (by simpa using Nat.lt_of_succ_lt_succ h)

theorem decreaseBalance_length (balances : List Nat) (index amount : Nat) :
    (decreaseBalance balances index amount).length = balances.length :=
  List.length_set balances index _

theorem foldlDecrease_length (pen : Nat → Nat) (inds : List Nat) (balances : List Nat) :
    (inds.foldl (fun bals k => decreaseBalance bals k (pen k)) balances).length =
      balances.length := by
  induction inds generalizing balances with
  | nil => rfl
  | cons a rest ih =>
    rw [List.foldl_cons, ih, decreaseBalance_length]

theorem foldlDecrease_getD_not_mem (pen : Nat → Nat) (inds : List Nat) (balances : List Nat)
    (j : Nat) (hj : j ∉ inds) :
    (inds.foldl (fun bals k => decreaseBalance bals k (pen k)) balances).getD j 0 =
      balances.getD j 0 := by
  induction inds generalizing balances with
  | nil => rfl
  | cons a rest ih =>
    rw [List.mem_cons, not_or] at hj
    rw [List.foldl_cons, ih _ hj.2, decreaseBalance, getD_set_ne _ _ _ _ (Ne.symm hj.1)]

theorem foldlDecrease_getD_mem (pen : Nat → Nat) (inds : List Nat) (balances : List Nat)
    (i : Nat) (hnd : inds.Nodup) (hmem : i ∈ inds) (hlen : i < balances.length) :
    (inds.foldl (fun bals k => decreaseBalance bals k (pen k)) balances).getD i 0 =
      balances.getD i 0 - pen i := by
  induction inds generalizing balances with
  | nil => simp at hmem
  | cons a rest ih =>
    rw [List.nodup_cons] at hnd
    rw [List.foldl_cons]
    rcases List.mem_cons.mp hmem with rfl | hrest
    · rw [foldlDecrease_getD_not_mem _ _ _ _ hnd.1, decreaseBalance,
        getD_set_self _ _ _ hlen]
    · rw [ih _ hnd.2 hrest (by rw [decreaseBalance_length]; exact hlen),
        decreaseBalance, getD_set_ne _ _ _ _ (fun h => hnd.1 (by rw [h]; exact hrest))]

/-- The concrete state of the spec's slashing scenario: the slashings vector
sums to 32 ETH and the slashed validator's balance is 32 ETH. -/
def exampleSlashState : SlashingsStateModel :=
  SlashingsStateModel.mk [32000000000] [32000000000]

/-- C1 counterexample: in the concrete scenario (effective balance 32 ETH,
total slashings 32 ETH, total active stake 3200 ETH, phase 0 multiplier 3)
the floor division (32 * 96 ETH) / 3200 ETH truncates to zero, so the
balance is unchanged rather than reduced by 0.96 ETH as the claim states. -/
theorem processSlashings_example_penalty_zero :
    (processSlashingsAllForks true exampleSlashState (fun _ => 32000000000) [0]
        3200000000000).balances = [32000000000] ∧
    (processSlashingsAllForks true exampleSlashState (fun _ => 32000000000) [0]
        3200000000000).balances.getD 0 0 ≠ 32000000000 - 960000000 := by
  constructor
  · decide
  · decide

/-- C1 amended: for every slashed index, the penalty applied by
processSlashings equals
(effectiveBalance / increment) * min(totalSlashings * multiplier, totalStake)
/ totalStake * increment with floor divisions in that order; in the concrete
scenario (32 ETH effective, 32 ETH total slashings, 3200 ETH total stake,
phase 0 multiplier 3) that penalty is 0, not 0.96 ETH, because
(32 * 96 ETH) / 3200 ETH floors to zero. -/
theorem processSlashings_penalty_formula (isPhase0 : Bool) (st : SlashingsStateModel)
    (effBal : Nat → Nat) (indicesToSlash : List Nat) (totalActiveStake i : Nat)
    (hnd : indicesToSlash.Nodup) (hmem : i ∈ indicesToSlash)
    (hlen : i < st.balances.length) :
    (processSlashingsAllForks isPhase0 st effBal indicesToSlash totalActiveStake).balances.getD i 0 =
      st.balances.getD i 0 -
        slashingPenalty totalActiveStake
          (min ((st.slashings.foldl (· + ·) 0) *
            (if isPhase0 then PROPORTIONAL_SLASHING_MULTIPLIER
             else PROPORTIONAL_SLASHING_MULTIPLIER_ALTAIR))
            totalActiveStake)
          (effBal i) ∧
    slashingPenalty 3200000000000 (min (32000000000 * PROPORTIONAL_SLASHING_MULTIPLIER)
      3200000000000) 32000000000 = 0 := by
  refine ⟨?_, by decide⟩
  have hne : indicesToSlash.isEmpty = false := by
    cases indicesToSlash with
    | nil => simp at hmem
    | cons a rest => rfl
  rw [processSlashingsAllForks, hne]
  simp only [Bool.false_eq_true, if_false]
  exact foldlDecrease_getD_mem _ indicesToSlash st.balances i hnd hmem hlen

/-- Witness for C1 at the concrete scenario: one slashed validator, index 0,
32 ETH effective, 32 ETH total slashings, 3200 ETH active stake. -/
theorem processSlashings_penalty_formula_witness :
    (processSlashingsAllForks true exampleSlashState (fun _ => 32000000000) [0]
        3200000000000).balances.getD 0 0 =
      exampleSlashState.balances.getD 0 0 -
        slashingPenalty 3200000000000
          (min ((exampleSlashState.slashings.foldl (· + ·) 0) *
            (if true then PROPORTIONAL_SLASHING_MULTIPLIER
             else PROPORTIONAL_SLASHING_MULTIPLIER_ALTAIR))
            3200000000000)
          ((fun _ => 32000000000) 0) ∧
    slashingPenalty 3200000000000 (min (32000000000 * PROPORTIONAL_SLASHING_MULTIPLIER)
      3200000000000) 32000000000 = 0 :=
  processSlashings_penalty_formula true exampleSlashState (fun _ => 32000000000) [0]
    3200000000000 0 (by decide) (by decide) (by decide)
